import Mathlib

/-!
Verification development for the tooltrain repository.

This file gives a shallow embedding of the core of the repository:
the commander-data type algebra and codec (src/commander-data/src/types.rs,
flexbuffer_coders.rs, lib.rs), the three reactive data streams
(src/commander-engine/src/datastream/{value,list,tree}.rs), the data-stream
registry (src/commander-engine/src/streaming/storage.rs), the input binding
API (src/tooltrain-engine/src/streaming/inputs/api.rs) and the guest-facing
change-stream projection (src/commander-engine/src/streaming/inputs/host.rs).

Modelling conventions:
  * Rust machine floats (f64) are carried opaquely by the codec; they are
    modelled by their raw 64-bit payload (a natural number), which the codec
    never inspects.
  * The flexbuffers byte buffer is modelled by the tree of flexbuffer values
    the serializer writes (`FlexValue`); the flexbuffers crate itself is an
    external dependency that faithfully round-trips this tree to bytes.
  * `BTreeMap<String, V>` is modelled by an association list that is strictly
    sorted by key; iteration order of the Rust map is exactly that order.
  * `Vec<T>` fields in recursive positions are modelled by dedicated cons-list
    types (`TypeList`, `ValueList`, `FieldList`, `FlexList`), isomorphic to
    `List T`, so that decidable equality is available.
  * Fallible Rust functions returning `Result<T, Error>` are modelled with
    `Except String T`; a Rust panic (`unwrap`, `todo!`) inside them is also
    modelled as an `Except.error` whose message is prefixed with "panic:".
  * tokio broadcast channels are modelled by an event log plus a subscriber
    count; a send appends to the log when at least one subscriber exists, and
    a subscriber that subscribed when the log had length `n` receives exactly
    the events after position `n` (the claims under verification all assume
    the broadcast ring never overflows).
-/

namespace Tooltrain

mutual

/-- The commander type algebra, from `CommanderDataType` in
src/commander-data/src/types.rs.  The enum type stores its variants in
declaration order (the ordinal of a variant is its index, per
`CommanderEnumDataType::new`); the struct type stores field names and field
types as two parallel lists, as in `CommanderStructDataType`.  The several
Rust list representations (`CommanderTypedListDataType<_>` and the generic
list) all denote the list type determined by the child type and are collapsed
into the single `list` constructor. -/
inductive CommanderDataType where
  | trigger
  | boolean
  | number
  | string
  | bytes
  | color
  | json
  | svg
  | path
  | enumT (name : String) (variants : List String)
  | structT (name : String) (fieldNames : List String) (fieldTypes : TypeList)
  | list (child : CommanderDataType)

/-- `Vec<CommanderDataType>` (the declared field types of a struct). -/
inductive TypeList where
  | nil
  | cons (head : CommanderDataType) (rest : TypeList)

end

deriving instance DecidableEq for CommanderDataType, TypeList

mutual

/-- Commander values, from `CommanderValue` in src/commander-data/src/types.rs.
`number` carries the raw 64-bit payload of the Rust f64; `color` carries the
four u16 channels; `enumV` is `CommanderEnumVariant` (a name and an ordinal);
`structV` is the `BTreeMap<String, CommanderValue>` of a struct value,
represented as its sorted association list; `path` is the component list of
the `PathBuf` (Rust `PathBuf` equality compares exactly this list). -/
inductive CommanderValue where
  | trigger
  | boolean (b : Bool)
  | number (bits : Nat)
  | string (s : String)
  | bytes (bs : List Nat)
  | color (c0 c1 c2 c3 : Nat)
  | json (s : String)
  | svg (s : String)
  | path (components : List String)
  | enumV (name : String) (ordinal : Nat)
  | structV (fields : FieldList)
  | listV (elems : ValueList)

/-- The entries of a `BTreeMap<String, CommanderValue>`. -/
inductive FieldList where
  | nil
  | cons (key : String) (value : CommanderValue) (rest : FieldList)

/-- `Vec<CommanderValue>` (the elements of a list value). -/
inductive ValueList where
  | nil
  | cons (head : CommanderValue) (rest : ValueList)

end

deriving instance DecidableEq for CommanderValue, FieldList, ValueList

mutual

/-- The tree of flexbuffer values written by a `FlexbufferSerializer`.
This abstracts the byte buffer produced by the external flexbuffers crate:
`nul` is the unit value (serialized `PhantomData`), `num` a 64-bit float
carried by its raw bits, `uint` an unsigned integer (u8 / u16 / u32), `vec`
a serialized sequence. -/
inductive FlexValue where
  | nul
  | bool (b : Bool)
  | num (bits : Nat)
  | str (s : String)
  | uint (n : Nat)
  | vec (elems : FlexList)

/-- A serialized flexbuffer sequence. -/
inductive FlexList where
  | nil
  | cons (head : FlexValue) (rest : FlexList)

end

deriving instance DecidableEq for FlexValue, FlexList

deriving instance DecidableEq for Except

/-- Lexicographic order on character lists. -/
def charsLt : List Char → List Char → Bool
  | [], [] => false
  | [], _ :: _ => true
  | _ :: _, [] => false
  | a :: as, b :: bs =>
      if a < b then true else if b < a then false else charsLt as bs

/-- The Rust `Ord` order on `String` (lexicographic byte order, which under
UTF-8 agrees with lexicographic code-point order); this is the key order of
a `BTreeMap<String, _>`. -/
def strLt (a b : String) : Bool := charsLt a.data b.data

/-- The keys of a struct value map, in iteration order. -/
def FieldList.keys : FieldList → List String
  | .nil => []
  | .cons k _ rest => k :: FieldList.keys rest

/-- `Vec<u8>` serialized as a flexbuffer sequence of unsigned ints. -/
def flexOfUints : List Nat → FlexList
  | [] => .nil
  | n :: ns => .cons (.uint n) (flexOfUints ns)

/-- `Vec<String>` serialized as a flexbuffer sequence of strings. -/
def flexOfStrs : List String → FlexList
  | [] => .nil
  | s :: ss => .cons (.str s) (flexOfStrs ss)

namespace CommanderDataType

mutual

/-- `CommanderCoder::encode` / `encode_to_serializer` for `CommanderDataType`
(src/commander-data/src/types.rs and flexbuffer_coders.rs).  Primitive
coders serialize their value unchanged; `path` serializes its component
strings (`CommanderPathDataType::encode_to_wire_format`); `enum` serializes
the variant ordinal only; `struct` serializes a sequence obtained by zipping
the value map IN BTREEMAP KEY ORDER with the field types IN DECLARATION
ORDER (`CommanderStructDataType::encode_to_serializer`); `list` serializes
each element with the child type.  A value whose tag does not match the
type yields the "Expected a ... value" error (for typed lists the Rust code
panics via `unwrap` instead; both failure forms are modelled as errors). -/
def encode : CommanderDataType → CommanderValue → Except String FlexValue
  | .trigger, .trigger => .ok .nul
  | .boolean, .boolean b => .ok (.bool b)
  | .number, .number bits => .ok (.num bits)
  | .string, .string s => .ok (.str s)
  | .bytes, .bytes bs => .ok (.vec (flexOfUints bs))
  | .color, .color c0 c1 c2 c3 =>
      .ok (.vec (.cons (.uint c0) (.cons (.uint c1)
        (.cons (.uint c2) (.cons (.uint c3) .nil)))))
  | .json, .json s => .ok (.str s)
  | .svg, .svg s => .ok (.str s)
  | .path, .path comps => .ok (.vec (flexOfStrs comps))
  | .enumT _ _, .enumV _ ordinal => .ok (.uint ordinal)
  | .structT _ _ fieldTypes, .structV m => do
      let elems ← encodeFields fieldTypes m
      .ok (.vec elems)
  | .list child, .listV elems => do
      let out ← encodeAll child elems
      .ok (.vec out)
  | _, _ => .error "Expected a value matching the data type."
termination_by structural _ v => v

/-- Encoding of the struct value map zipped with the field types:
`value.into_iter().zip(self.field_types.iter())` pairs the map entries in
BTreeMap key order with the declared types in declaration order, discarding
each entry's key, and like `Iterator::zip` it stops at the shorter
sequence. -/
def encodeFields : TypeList → FieldList → Except String FlexList
  | .cons t ts, .cons _ v vs => do
      let e ← encode t v
      let es ← encodeFields ts vs
      .ok (.cons e es)
  | _, _ => .ok .nil
termination_by structural _ m => m

/-- Element-wise encoding of a list value with the child type. -/
def encodeAll : CommanderDataType → ValueList → Except String FlexList
  | _, .nil => .ok .nil
  | t, .cons v vs => do
      let e ← encode t v
      let es ← encodeAll t vs
      .ok (.cons e es)
termination_by structural _ vs => vs

end

end CommanderDataType

/-- Ordered insertion into the sorted association list modelling a
`BTreeMap<String, CommanderValue>`; an existing key is overwritten. -/
def btreeInsert (k : String) (v : CommanderValue) : FieldList → FieldList
  | .nil => .cons k v .nil
  | .cons k2 v2 rest =>
    if strLt k k2 then .cons k v (.cons k2 v2 rest)
    else if k = k2 then .cons k v rest
    else .cons k2 v2 (btreeInsert k v rest)

/-- Truncating zip of the declared field names with the decoded values
(`field_names.clone().into_iter().zip(values)`). -/
def zipFields : List String → ValueList → FieldList
  | n :: ns, .cons v vs => .cons n v (zipFields ns vs)
  | _, _ => .nil

/-- `collect::<BTreeMap<_, _>>()` over a pair sequence. -/
def btreeOfFields : FieldList → FieldList
  | .nil => .nil
  | .cons k v rest => btreeOfFields rest |> btreeInsert k v

namespace CommanderDataType

/-- Helper for `bytes` decoding: every element must be an unsigned int. -/
def decodeUints : FlexList → Except String (List Nat)
  | .nil => .ok []
  | .cons (.uint n) es => do
      let ns ← decodeUints es
      .ok (n :: ns)
  | _ => .error "Malformed flexbuffer for the data type."

/-- Helper for `path` decoding: every component must be a string. -/
def decodeStrs : FlexList → Except String (List String)
  | .nil => .ok []
  | .cons (.str s) es => do
      let ss ← decodeStrs es
      .ok (s :: ss)
  | _ => .error "Malformed flexbuffer for the data type."

mutual

/-- `CommanderCoder::decode` / `decode_from_reader` for `CommanderDataType`
(src/commander-data/src/types.rs).  `enum` resolves the wire ordinal back to
the variant at that index (`decode_from_wire_format`, "Unknown enum variant"
on an out-of-range ordinal); `struct` reads the value vector, decodes it
zipped with the field types in declaration order, and collects
`field_names.zip(values)` into a `BTreeMap`; `list` decodes each vector
element with the child type.  A flexbuffer value of the wrong shape is a
decode error. -/
def decode : CommanderDataType → FlexValue → Except String CommanderValue
  | .trigger, .nul => .ok .trigger
  | .boolean, .bool b => .ok (.boolean b)
  | .number, .num bits => .ok (.number bits)
  | .string, .str s => .ok (.string s)
  | .bytes, .vec elems => do
      let bs ← decodeUints elems
      .ok (.bytes bs)
  | .color, .vec (.cons (.uint c0) (.cons (.uint c1)
      (.cons (.uint c2) (.cons (.uint c3) .nil)))) =>
      .ok (.color c0 c1 c2 c3)
  | .json, .str s => .ok (.json s)
  | .svg, .str s => .ok (.svg s)
  | .path, .vec elems => do
      let comps ← decodeStrs elems
      .ok (.path comps)
  | .enumT _ variants, .uint w =>
      match variants[w]? with
      | some name => .ok (.enumV name w)
      | none => .error "Unknown enum variant"
  | .structT _ fieldNames fieldTypes, .vec elems => do
      let values ← decodeZip fieldTypes elems
      .ok (.structV (btreeOfFields (zipFields fieldNames values)))
  | .list child, .vec elems => do
      let out ← decodeAll child elems
      .ok (.listV out)
  | _, _ => .error "Malformed flexbuffer for the data type."
termination_by structural _ f => f

/-- Decoding of the struct value vector zipped with the field types;
like `Iterator::zip` it stops at the shorter sequence. -/
def decodeZip : TypeList → FlexList → Except String ValueList
  | .cons t ts, .cons e es => do
      let v ← decode t e
      let vs ← decodeZip ts es
      .ok (.cons v vs)
  | _, _ => .ok .nil
termination_by structural _ es => es

/-- Element-wise decoding of a list value with the child type. -/
def decodeAll : CommanderDataType → FlexList → Except String ValueList
  | _, .nil => .ok .nil
  | t, .cons e es => do
      let v ← decode t e
      let vs ← decodeAll t es
      .ok (.cons v vs)
termination_by structural _ es => es

end

end CommanderDataType

/-- String keys strictly ascending (the invariant of a `BTreeMap`
association list). -/
def strSorted : List String → Bool
  | [] => true
  | [_] => true
  | a :: b :: rest => strLt a b && strSorted (b :: rest)

/-- Stable insertion used to sort the declared field names. -/
def insertStr (s : String) : List String → List String
  | [] => [s]
  | a :: rest => if strLt a s then a :: insertStr s rest else s :: a :: rest

/-- Insertion sort of the declared field names. -/
def sortStrs (l : List String) : List String := l.foldr insertStr []

/-- Declared type of a struct field, by name. -/
def fieldTypeOf : List String → TypeList → String → Option CommanderDataType
  | fn :: fns, .cons ft fts, k =>
      if fn = k then some ft else fieldTypeOf fns fts k
  | _, _, _ => none

mutual

/-- A value is well-formed against a type (the spec's "well-formed against
`type`"): the tags match, byte and colour channels are in machine range, an
enum value is one of the declared variants carrying its declaration index as
ordinal, a struct value is a `BTreeMap` whose key list is exactly the sorted
declared field names with each entry well-formed at its declared field type,
and list elements are well-formed at the child type. -/
def wfValue : CommanderDataType → CommanderValue → Bool
  | .trigger, .trigger => true
  | .boolean, .boolean _ => true
  | .number, .number bits => decide (bits < 2 ^ 64)
  | .string, .string _ => true
  | .bytes, .bytes bs => bs.all (· < 2 ^ 8)
  | .color, .color c0 c1 c2 c3 =>
      decide (c0 < 2 ^ 16) && decide (c1 < 2 ^ 16) &&
      decide (c2 < 2 ^ 16) && decide (c3 < 2 ^ 16)
  | .json, .json _ => true
  | .svg, .svg _ => true
  | .path, .path _ => true
  | .enumT _ variants, .enumV name ordinal =>
      decide (variants[ordinal]? = some name)
  | .structT _ fieldNames fieldTypes, .structV m =>
      decide (m.keys = sortStrs fieldNames) &&
      strSorted m.keys &&
      wfFields fieldNames fieldTypes m
  | .list child, .listV elems => wfList child elems
  | _, _ => false
termination_by structural _ v => v

/-- Field-wise well-formedness of a struct value map. -/
def wfFields (fieldNames : List String) (fieldTypes : TypeList) :
    FieldList → Bool
  | .nil => true
  | .cons k v rest =>
    (match fieldTypeOf fieldNames fieldTypes k with
     | some t => wfValue t v
     | none => false) &&
    wfFields fieldNames fieldTypes rest
termination_by structural m => m

/-- Element-wise well-formedness of a list value. -/
def wfList (child : CommanderDataType) : ValueList → Bool
  | .nil => true
  | .cons v vs => wfValue child v && wfList child vs
termination_by structural vs => vs

end

/-- `Vec::join(", ")`, used by `type_string` for enum variants and struct
fields. -/
def joinComma : List String → String
  | [] => ""
  | [s] => s
  | s :: rest => s ++ ", " ++ joinComma rest

mutual

/-- `CommanderCoder::type_string` (src/commander-data/src/types.rs): the
canonical printed form of a type.  Primitives print their keyword
(`type_string__`), `enum Name<V1, V2>` and `struct Name<f1: T1, f2: T2>`
print name and comma-joined members, `list<T>` prints recursively. -/
def typeString : CommanderDataType → String
  | .trigger => "trigger"
  | .boolean => "boolean"
  | .number => "number"
  | .string => "string"
  | .bytes => "bytes"
  | .color => "color"
  | .json => "json"
  | .svg => "svg"
  | .path => "path"
  | .enumT name variants => "enum " ++ name ++ "<" ++ joinComma variants ++ ">"
  | .structT name fieldNames fieldTypes =>
      "struct " ++ name ++ "<" ++ joinComma (fieldStrings fieldNames fieldTypes) ++ ">"
  | .list child => "list<" ++ typeString child ++ ">"
termination_by structural t => t

/-- The `name: type` strings of a struct's fields
(`field_names.iter().zip(field_types.iter())`, truncating). -/
def fieldStrings : List String → TypeList → List String
  | n :: ns, .cons t ts => (n ++ ": " ++ typeString t) :: fieldStrings ns ts
  | _, _ => []
termination_by structural _ ts => ts

end

/-! ### Type-string parser

The pest grammar file `wit/types.pest` referenced by
src/commander-data/src/lib.rs is not part of the sources; its token shapes
are modelled from the spec's EBNF grammar (NAME = letter (letter|digit|_)*,
the keywords, `< > , :` punctuation, whitespace-insensitive outside names).
The expansion of parsed rules into `CommanderDataType` follows
`expand_type` / `expand_static_type` / `expand_primitive_type` /
`expand_enum_type` / `expand_list_type` in src/commander-data/src/lib.rs;
in particular the `struct`, `set`, `map`, `tuple` and `url` rules hit
`todo!()` there, modelled as errors prefixed "panic:". -/

/-- Tokens of the type grammar. -/
inductive Tok where
  | lt
  | gt
  | comma
  | colon
  | ident (s : String)
  deriving DecidableEq

/-- First character of a NAME: a letter. -/
def isIdentStart (c : Char) : Bool := c.isAlpha

/-- Continuation character of a NAME: letter, digit or underscore. -/
def isIdentChar (c : Char) : Bool := c.isAlphanum || c = '_'

/-- Punctuation tokens of the grammar. -/
def symTok (c : Char) : Option Tok :=
  if c = '<' then some .lt
  else if c = '>' then some .gt
  else if c = ',' then some .comma
  else if c = ':' then some .colon
  else none

mutual

/-- Modelled from the spec: tokenizer for the canonical type grammar
(the grammar file wit/types.pest is not in the sources).  Whitespace is
skipped between tokens, names are maximal identifier runs, and the
punctuation is `< > , :`. -/
def lexChars : List Char → Except String (List Tok)
  | [] => .ok []
  | c :: cs =>
    if c = ' ' then lexChars cs
    else if isIdentStart c then lexIdent [c] cs
    else
      match symTok c with
      | some tok =>
        match lexChars cs with
        | .ok ts => .ok (tok :: ts)
        | .error e => .error e
      | none => .error "unexpected character in type string"
termination_by structural cs => cs

/-- Tokenizer state inside an identifier; `acc` holds the identifier's
characters in reverse. -/
def lexIdent (acc : List Char) : List Char → Except String (List Tok)
  | [] => .ok [.ident (String.mk acc.reverse)]
  | c :: cs =>
    if isIdentChar c then lexIdent (c :: acc) cs
    else if c = ' ' then
      match lexChars cs with
      | .ok ts => .ok (.ident (String.mk acc.reverse) :: ts)
      | .error e => .error e
    else
      match symTok c with
      | some tok =>
        match lexChars cs with
        | .ok ts => .ok (.ident (String.mk acc.reverse) :: tok :: ts)
        | .error e => .error e
      | none => .error "unexpected character in type string"
termination_by structural cs => cs

end

/-- `expand_primitive_type` (src/commander-data/src/lib.rs): keyword to
primitive type; the `url` rule is `todo!()` and so absent here. -/
def primOfKeyword : String → Option CommanderDataType
  | "boolean" => some .boolean
  | "number" => some .number
  | "string" => some .string
  | "bytes" => some .bytes
  | "color" => some .color
  | "path" => some .path
  | "json" => some .json
  | "svg" => some .svg
  | _ => none

/-- `enum Name<V1, …, Vn>` variant list: identifiers separated by commas,
closed by `>` (at least one variant, per the grammar). -/
def parseVariants : List Tok → Except String (List String × List Tok)
  | .ident v :: .comma :: rest =>
      match parseVariants rest with
      | .ok (vs, rest') => .ok (v :: vs, rest')
      | .error e => .error e
  | .ident v :: .gt :: rest => .ok ([v], rest)
  | _ => .error "expected enum variant"

/-- `expand_static_type` (src/commander-data/src/lib.rs) combined with the
grammar's `static` rule: `list<static>`, `enum Name<…>` (via
`expand_enum_type` / `expand_list_type`) or a primitive keyword.  The
`struct`, `set`, `map` and `tuple` rules hit `todo!()` in the source and the
`url` primitive hits `todo!()` in `expand_primitive_type`; all five are
modelled as "panic:" errors. -/
def parseStatic : List Tok → Except String (CommanderDataType × List Tok)
  | .ident "list" :: .lt :: rest =>
      (match parseStatic rest with
      | .ok (child, rest') =>
        match rest' with
        | .gt :: rest'' => .ok (.list child, rest'')
        | _ => .error "expected closing > of list"
      | .error e => .error e)
  | .ident "enum" :: .ident name :: .lt :: rest =>
      (match parseVariants rest with
      | .ok (vs, rest') => .ok (.enumT name vs, rest')
      | .error e => .error e)
  | .ident "struct" :: _ => .error "panic: not yet implemented (struct)"
  | .ident "set" :: _ => .error "panic: not yet implemented (set)"
  | .ident "map" :: _ => .error "panic: not yet implemented (map)"
  | .ident "tuple" :: _ => .error "panic: not yet implemented (tuple)"
  | .ident "url" :: _ => .error "panic: not yet implemented (url)"
  | .ident kw :: rest =>
      (match primOfKeyword kw with
      | some t => .ok (t, rest)
      | none => .error "No primitive_type found")
  | _ => .error "No static_type found"

/-- `expand_type` (src/commander-data/src/lib.rs): `trigger` at top level,
otherwise a static type. -/
def parseType : List Tok → Except String (CommanderDataType × List Tok)
  | .ident "trigger" :: rest => .ok (.trigger, rest)
  | toks => parseStatic toks

/-- `parse` (src/commander-data/src/lib.rs): tokenize the input and expand
the parse tree into a `CommanderDataType`; the whole input must be
consumed. -/
def parse (input : String) : Except String CommanderDataType :=
  match lexChars input.data with
  | .error e => .error e
  | .ok toks =>
    match parseType toks with
    | .ok (t, []) => .ok t
    | .ok (_, _ :: _) => .error "trailing input after type"
    | .error e => .error e

/-- A NAME of the grammar: a letter followed by letters, digits or
underscores. -/
def validIdent (s : String) : Bool :=
  match s.data with
  | [] => false
  | c :: cs => isIdentStart c && cs.all isIdentChar

/-- The parseable fragment of the type algebra below top level (the
grammar's `static` rule): primitives, enums with a valid name and at least
one valid variant name, and lists of such.  `trigger` is only legal at top
level, and `struct` types are not parseable (the expansion is `todo!()`). -/
def wfStatic : CommanderDataType → Bool
  | .trigger => false
  | .boolean => true
  | .number => true
  | .string => true
  | .bytes => true
  | .color => true
  | .json => true
  | .svg => true
  | .path => true
  | .enumT name variants =>
      validIdent name && !variants.isEmpty && variants.all validIdent
  | .structT _ _ _ => false
  | .list child => wfStatic child

/-- The parseable fragment at top level (the grammar's `type` rule):
`trigger` or a static type. -/
def wfType : CommanderDataType → Bool
  | .trigger => true
  | t => wfStatic t

/-- A character sequence that cannot extend an identifier to its left:
empty, or starting with a non-identifier character. -/
def identBreak : List Char → Bool
  | [] => true
  | c :: _ => !isIdentChar c

/-- Functorial action on the token result of the tokenizer. -/
def mapToks (f : List Tok → List Tok) :
    Except String (List Tok) → Except String (List Tok)
  | .ok ts => .ok (f ts)
  | .error e => .error e

/-- Token sequence of a comma-separated identifier list. -/
def identCommaToks : List String → List Tok
  | [] => []
  | [v] => [.ident v]
  | v :: vs => .ident v :: .comma :: identCommaToks vs

/-- The token sequence of the canonical printed form of a type. -/
def toksOf : CommanderDataType → List Tok
  | .trigger => [.ident "trigger"]
  | .boolean => [.ident "boolean"]
  | .number => [.ident "number"]
  | .string => [.ident "string"]
  | .bytes => [.ident "bytes"]
  | .color => [.ident "color"]
  | .json => [.ident "json"]
  | .svg => [.ident "svg"]
  | .path => [.ident "path"]
  | .enumT name variants =>
      .ident "enum" :: .ident name :: .lt :: identCommaToks variants ++ [.gt]
  | .structT _ _ _ => []
  | .list child => .ident "list" :: .lt :: toksOf child ++ [.gt]

/-! ### Concrete instances used by the codec and grammar claims -/

/-- The struct type `struct S<b: string, a: string>`: two string fields whose
declaration order (`b` before `a`) differs from their alphabetical order. -/
def structBA : CommanderDataType :=
  .structT "S" ["b", "a"] (.cons .string (.cons .string .nil))

/-- The struct value `{a: "x", b: "y"}` (a `BTreeMap`, so iterated in key
order `a`, `b`), well-formed against `structBA`. -/
def structBAValue : CommanderValue :=
  .structV (.cons "a" (.string "x") (.cons "b" (.string "y") .nil))

/-- The struct value `{a: "y", b: "x"}`: `structBAValue` with the two field
values exchanged. -/
def structBASwapped : CommanderValue :=
  .structV (.cons "a" (.string "y") (.cons "b" (.string "x") .nil))

/-- The enum type `enum Number<ONE, TWO>` from the repository's own
`parses_enum` test. -/
def enumNumber : CommanderDataType := .enumT "Number" ["ONE", "TWO"]

/-! ### Reactive data streams (src/commander-engine/src/datastream/) -/

/-- Modelled from the spec: the WIT `TreeNode` record (the wit/ directory is
not part of the sources): an opaque string id, a codec-blob value payload,
and a has-children hint (spec §3, "Stream kinds").  `TreeStream` itself only
inspects `id`. -/
structure TreeNode where
  id : String
  value : List Nat
  hasChildren : Bool
  deriving DecidableEq

/-- `ValueChange` (src/commander-engine/src/datastream/value.rs); the
`Arc<Value>` payload is modelled by the value itself. -/
inductive ValueChange where
  | set (v : CommanderValue)
  | destroy
  deriving DecidableEq

/-- `ListChange` (src/commander-engine/src/datastream/list.rs). -/
inductive ListChange where
  | add (v : CommanderValue)
  | pop (v : CommanderValue)
  | hasMorePages (b : Bool)
  | clear
  | destroy
  deriving DecidableEq

/-- `TreeChange` (src/commander-engine/src/datastream/tree.rs). -/
inductive TreeChange where
  | add (parent : Option String) (children : List TreeNode)
  | remove (node : TreeNode)
  | clear
  | destroy
  deriving DecidableEq

/-- `ValueStream` (src/commander-engine/src/datastream/value.rs): the current
value plus its change broadcast, modelled as an event log and a subscriber
count (a tokio broadcast send is dropped with its error ignored when there
is no receiver). -/
structure ValueStream where
  value : Option CommanderValue
  updates : List ValueChange
  updatesSubscribers : Nat
  deriving DecidableEq

namespace ValueStream

/-- `ValueStream::new`. -/
def new (initial : Option CommanderValue) : ValueStream :=
  { value := initial, updates := [], updatesSubscribers := 0 }

/-- `let _ = self.updates.send(e)`: delivered only if some receiver exists,
errors ignored. -/
def send (s : ValueStream) (e : ValueChange) : ValueStream :=
  if s.updatesSubscribers = 0 then s else { s with updates := s.updates ++ [e] }

/-- `ValueStream::snapshot`. -/
def snapshot (s : ValueStream) : Option CommanderValue := s.value

/-- `ValueStream::set` (always `Ok`). -/
def set (s : ValueStream) (v : CommanderValue) : ValueStream :=
  send { s with value := some v } (.set v)

/-- `ValueStream::destroy` (always `Ok`). -/
def destroy (s : ValueStream) : ValueStream :=
  send { s with value := none } .destroy

/-- `ValueStream::subscribe`: a new receiver sees exactly the events sent
after this point, i.e. the log entries from the returned position on. -/
def subscribe (s : ValueStream) : ValueStream × Nat :=
  ({ s with updatesSubscribers := s.updatesSubscribers + 1 }, s.updates.length)

end ValueStream

/-- `ListStream` (src/commander-engine/src/datastream/list.rs): the element
vector, the `has_more_rows` flag, the change broadcast and the page-request
back-channel, each modelled as an event log plus a subscriber count. -/
structure ListStream where
  value : List CommanderValue
  updates : List ListChange
  updatesSubscribers : Nat
  hasMoreRows : Bool
  pageRequests : List Nat
  pageSubscribers : Nat
  deriving DecidableEq

namespace ListStream

/-- `ListStream::new`. -/
def new : ListStream :=
  { value := [], updates := [], updatesSubscribers := 0, hasMoreRows := false,
    pageRequests := [], pageSubscribers := 0 }

/-- `let _ = self.updates.send(e)`: delivered only if some receiver exists,
errors ignored. -/
def send (s : ListStream) (e : ListChange) : ListStream :=
  if s.updatesSubscribers = 0 then s else { s with updates := s.updates ++ [e] }

/-- `ListStream::snapshot`. -/
def snapshot (s : ListStream) : List CommanderValue := s.value

/-- `ListStream::add` (always `Ok`): push then broadcast `Add`. -/
def add (s : ListStream) (v : CommanderValue) : ListStream :=
  send { s with value := s.value ++ [v] } (.add v)

/-- `ListStream::pop`: error on an empty list, otherwise remove the last
element and broadcast `Pop`. -/
def pop (s : ListStream) : Except String ListStream :=
  match s.value.getLast? with
  | none => .error "Cannot pop values from an empty list"
  | some last =>
      .ok (send { s with value := s.value.dropLast } (.pop last))

/-- `ListStream::clear` (always `Ok`). -/
def clear (s : ListStream) : ListStream :=
  send { s with value := [] } .clear

/-- `ListStream::destroy` (always `Ok`). -/
def destroy (s : ListStream) : ListStream :=
  send { s with value := [] } .destroy

/-- `ListStream::set_has_more_rows` (always `Ok`). -/
def set_has_more_rows (s : ListStream) (b : Bool) : ListStream :=
  send { s with hasMoreRows := b } (.hasMorePages b)

/-- `ListStream::request_page`: returns `Ok(false)` when `has_more_rows` is
unset; otherwise `self.page_load_sender.send(limit)?` — the send error (no
active receiver on the back-channel) PROPAGATES — and returns `Ok(true)`. -/
def request_page (s : ListStream) (limit : Nat) : Except String (ListStream × Bool) :=
  if !s.hasMoreRows then .ok (s, false)
  else if s.pageSubscribers = 0 then .error "channel closed"
  else .ok ({ s with pageRequests := s.pageRequests ++ [limit] }, true)

/-- `ListStream::subscribe`: a new receiver sees exactly the events sent
after this point, i.e. the log entries from the returned position on. -/
def subscribe (s : ListStream) : ListStream × Nat :=
  ({ s with updatesSubscribers := s.updatesSubscribers + 1 }, s.updates.length)

/-- A sequence of `add` calls, in order. -/
def addAll (s : ListStream) (vs : List CommanderValue) : ListStream :=
  vs.foldl add s

end ListStream

/-- Lookup in an association list modelling a `HashMap`. -/
def assocGet {α β : Type} [DecidableEq α] (k : α) : List (α × β) → Option β
  | [] => none
  | (k2, v) :: rest => if k2 = k then some v else assocGet k rest

/-- `HashMap::insert` semantics: replace the value at an existing key,
otherwise append the new entry. -/
def assocPut {α β : Type} [DecidableEq α] (k : α) (v : β) :
    List (α × β) → List (α × β)
  | [] => [(k, v)]
  | (k2, v2) :: rest =>
      if k2 = k then (k, v) :: rest else (k2, v2) :: assocPut k v rest

/-- `HashMap::remove` semantics (drops the entry for the key, if any). -/
def assocRemove {α β : Type} [DecidableEq α] (k : α) :
    List (α × β) → List (α × β)
  | [] => []
  | (k2, v2) :: rest =>
      if k2 = k then rest else (k2, v2) :: assocRemove k rest

mutual

/-- `TreeStreamNode` (src/commander-engine/src/datastream/tree.rs): a node
value together with its recursively resolved children. -/
inductive TreeStreamNode where
  | mk (value : TreeNode) (children : TreeNodeList)

/-- `Vec<TreeStreamNode>`. -/
inductive TreeNodeList where
  | nil
  | cons (head : TreeStreamNode) (rest : TreeNodeList)

end

deriving instance DecidableEq for TreeStreamNode, TreeNodeList

/-- `TreeStream` (src/commander-engine/src/datastream/tree.rs): the node map,
the parent-to-children edge map, the change broadcast and the expand-children
back-channel, each broadcast modelled as an event log plus a subscriber
count. -/
structure TreeStream where
  nodes : List (String × TreeNode)
  edges : List (Option String × List String)
  updates : List TreeChange
  updatesSubscribers : Nat
  childRequests : List String
  childSubscribers : Nat
  deriving DecidableEq

namespace TreeStream

/-- `TreeStream::new`. -/
def new : TreeStream :=
  { nodes := [], edges := [], updates := [], updatesSubscribers := 0,
    childRequests := [], childSubscribers := 0 }

/-- `let _ = self.updates.send(e)`: delivered only if some receiver exists,
errors ignored. -/
def send (s : TreeStream) (e : TreeChange) : TreeStream :=
  if s.updatesSubscribers = 0 then s else { s with updates := s.updates ++ [e] }

/-- `self.nodes.extend(children.map(|n| (n.id, n)))`: inserts every child,
silently REPLACING any node that already has the same id. -/
def insertNodes (nodes : List (String × TreeNode)) :
    List TreeNode → List (String × TreeNode)
  | [] => nodes
  | c :: cs => insertNodes (assocPut c.id c nodes) cs

/-- `self.edges.entry(parent).or_default().extend(ids)`: appends the child
ids to the parent's edge list, creating the entry if missing (duplicates are
appended again). -/
def edgesAppend (parent : Option String) (ids : List String)
    (edges : List (Option String × List String)) :
    List (Option String × List String) :=
  match assocGet parent edges with
  | some l => assocPut parent (l ++ ids) edges
  | none => edges ++ [(parent, ids)]

/-- `TreeStream::add`: errors when a parent id is given but absent from the
node map; otherwise inserts every child (no duplicate-id check — an existing
id is overwritten), appends every parent-to-child edge, and broadcasts
`Add`. -/
def add (s : TreeStream) (parent : Option String) (children : List TreeNode) :
    Except String TreeStream :=
  match parent with
  | some p =>
      if (assocGet p s.nodes).isNone then
        .error "Could not add children to non-existent parent"
      else
        .ok (send
          { s with nodes := insertNodes s.nodes children,
                   edges := edgesAppend parent (children.map TreeNode.id) s.edges }
          (.add parent children))
  | none =>
      .ok (send
        { s with nodes := insertNodes s.nodes children,
                 edges := edgesAppend parent (children.map TreeNode.id) s.edges }
        (.add parent children))

/-- `TreeStream::remove`, with explicit recursion fuel (the Rust recursion
consumes one node per call, so `nodes.length + 1` fuel always suffices):
errors on an absent id; otherwise removes the node from the node map, takes
the node's own edge entry out of the edge map (the edge from the node's
PARENT to the node is left behind), recursively removes the children, and
broadcasts one `Remove` per removed node in post-order. -/
def removeFuel : Nat → TreeStream → String → Except String TreeStream
  | 0, _, _ => .error "panic: recursion fuel exhausted"
  | fuel + 1, s, id =>
    match assocGet id s.nodes with
    | none => .error "Could not remove non-existent node"
    | some node =>
      let s1 := { s with nodes := assocRemove id s.nodes }
      let step :=
        match assocGet (some id) s1.edges with
        | some kids =>
            (kids.foldlM (fun st c => removeFuel fuel st c)
              { s1 with edges := assocRemove (some id) s1.edges } :
              Except String TreeStream)
        | none => .ok s1
      match step with
      | .ok s2 => .ok (send s2 (.remove node))
      | .error e => .error e
termination_by structural fuel => fuel

/-- `TreeStream::remove`. -/
def remove (s : TreeStream) (id : String) : Except String TreeStream :=
  removeFuel (s.nodes.length + 1) s id

/-- `TreeStream::subtree`, with recursion fuel (`none` models both the Rust
`unwrap()` panic on a child id that is missing from the node map and
non-termination on a cyclic edge map): resolves the edge list of `root`
(empty when absent, `unwrap_or_default`) into nodes with their recursive
subtrees. -/
def subtreeFuel : Nat → TreeStream → Option String → Option TreeNodeList
  | 0, _, _ => none
  | fuel + 1, s, root =>
    match assocGet root s.edges with
    | none => some .nil
    | some ids =>
        ids.foldr
          (fun id acc =>
            match assocGet id s.nodes with
            | none => none
            | some node =>
              match subtreeFuel fuel s (some node.id), acc with
              | some kids, some rest => some (.cons (.mk node kids) rest)
              | _, _ => none)
          (some .nil)
termination_by structural fuel => fuel

/-- `TreeStream::snapshot` (`self.subtree(&None)`); `none` models a panic. -/
def snapshotE (s : TreeStream) : Option TreeNodeList :=
  subtreeFuel (s.nodes.length + 1) s none

/-- `TreeStream::request_children`: `Ok(false)` when the parent id is absent;
otherwise `self.load_children_sender.send(parent)?` (the send error
propagates) and `Ok(true)`. -/
def request_children (s : TreeStream) (parent : String) :
    Except String (TreeStream × Bool) :=
  if (assocGet parent s.nodes).isNone then .ok (s, false)
  else if s.childSubscribers = 0 then .error "channel closed"
  else .ok ({ s with childRequests := s.childRequests ++ [parent] }, true)

/-- `TreeStream::clear` (always `Ok`). -/
def clear (s : TreeStream) : TreeStream :=
  send { s with nodes := [], edges := [] } .clear

/-- `TreeStream::destroy` (always `Ok`). -/
def destroy (s : TreeStream) : TreeStream :=
  send { s with nodes := [], edges := [] } .destroy

end TreeStream

/-! ### Guest-facing change-stream projection
(src/commander-engine/src/streaming/inputs/host.rs) -/

/-- Modelled from the spec: the WIT guest-facing list change record
(spec §6: `Append(bytes) | Pop | Replace([bytes]) | HasMorePages(bool)`);
the codec blob is modelled by the flexbuffer value it decodes from. -/
inductive GuestListChange where
  | append (blob : FlexValue)
  | pop
  | replace (blobs : List FlexValue)
  | hasMorePages (b : Bool)
  deriving DecidableEq

/-- The per-event projection applied by `HostListInput::get_change_stream`
(src/commander-engine/src/streaming/inputs/host.rs, the `.map` closure):
`Add(v)` is encoded (`unwrap` — an encode failure panics) into `Append`,
`Pop(_)` becomes `Pop`, `Clear` becomes `Replace([])`, and BOTH
`HasMorePages(_)` and `Destroy` hit `todo!()` — a panic, modelled as a
"panic:" error. -/
def listChangeToGuest (dataType : CommanderDataType) :
    ListChange → Except String GuestListChange
  | .add v =>
      match dataType.encode v with
      | .ok blob => .ok (.append blob)
      | .error e => .error ("panic: " ++ e)
  | .pop _ => .ok .pop
  | .hasMorePages _ => .error "panic: not yet implemented (HasMorePages)"
  | .clear => .ok (.replace [])
  | .destroy => .error "panic: not yet implemented (Destroy)"

/-! ### Data-stream registry (src/commander-engine/src/streaming/storage.rs)
and input binding (src/tooltrain-engine/src/streaming/inputs/api.rs) -/

/-- `DataStream` (src/commander-engine/src/datastream/mod.rs). -/
inductive DataStream where
  | value (s : ValueStream)
  | list (s : ListStream)
  | tree (s : TreeStream)
  deriving DecidableEq

/-- `DataStream::destroy` (always `Ok`). -/
def DataStream.destroy : DataStream → DataStream
  | .value s => .value s.destroy
  | .list s => .list s.destroy
  | .tree s => .tree s.destroy

/-- `DataStreamType` (src/commander-engine/src/streaming/storage.rs). -/
inductive DataStreamType where
  | value
  | list
  | tree
  deriving DecidableEq

/-- The stream kind recorded in the metadata on `add`. -/
def DataStream.kind : DataStream → DataStreamType
  | .value _ => .value
  | .list _ => .list
  | .tree _ => .tree

/-- `DataStreamMetadata` (src/commander-engine/src/streaming/storage.rs). -/
structure DataStreamMetadata where
  id : Nat
  name : String
  description : String
  dataType : CommanderDataType
  dataStreamType : DataStreamType
  deriving DecidableEq

/-- `DataStreamResource`: the metadata plus the shared
`Arc<RwLock<DataStream>>`.  The `Arc` is modelled by the stream state
together with the number of OTHER owners of the same `Arc` outside this
registry entry (`Arc::into_inner` succeeds exactly when that count is 0). -/
structure DataStreamResource where
  metadata : DataStreamMetadata
  stream : DataStream
  externalRefs : Nat
  deriving DecidableEq

/-- `DataStreamResourceChange` (src/commander-engine/src/streaming/storage.rs). -/
inductive DataStreamResourceChange where
  | added (metadata : DataStreamMetadata)
  | removed (id : Nat)
  | dataStreamChanged (id : Nat)
  deriving DecidableEq

/-- `DataStreamStorage` / `DataStreamStorageInternal`: the
`BTreeMap<ResourceId, DataStreamResource>` (an association list kept sorted
by id) plus the registry change broadcast (an event log and a subscriber
count). -/
structure DataStreamStorage where
  state : List (Nat × DataStreamResource)
  changes : List DataStreamResourceChange
  changesSubscribers : Nat
  deriving DecidableEq

namespace DataStreamStorage

/-- `Default for DataStreamStorage`. -/
def new : DataStreamStorage :=
  { state := [], changes := [], changesSubscribers := 0 }

/-- `let _ = writer.changes.send(e)`: delivered only if some receiver
exists, errors ignored. -/
def sendIgnore (s : DataStreamStorage) (e : DataStreamResourceChange) :
    DataStreamStorage :=
  if s.changesSubscribers = 0 then s else { s with changes := s.changes ++ [e] }

/-- Sorted insertion by resource id (the `BTreeMap::insert` of the state
map; an existing id is overwritten). -/
def statePut (id : Nat) (r : DataStreamResource) :
    List (Nat × DataStreamResource) → List (Nat × DataStreamResource)
  | [] => [(id, r)]
  | (k, v) :: rest =>
      if id < k then (id, r) :: (k, v) :: rest
      else if id = k then (id, r) :: rest
      else (k, v) :: statePut id r rest

/-- `last_key_value().map(|(k, _)| k + 1).unwrap_or(0)`: the `BTreeMap`'s
greatest key is the last entry of the sorted association list. -/
def nextIndex (s : DataStreamStorage) : Nat :=
  match s.state.getLast? with
  | some (k, _) => k + 1
  | none => 0

/-- `DataStreamStorage::add` (always `Ok`): allocates
highest-existing-id + 1 (0 when empty), records the metadata (the stream
kind read from the stream), inserts the resource and broadcasts `Added`.
`extRefs` is the number of other owners of the stream's `Arc`. -/
def add (s : DataStreamStorage) (name description : String)
    (dataType : CommanderDataType) (stream : DataStream) (extRefs : Nat) :
    DataStreamStorage × Nat :=
  let id := s.nextIndex
  let metadata : DataStreamMetadata :=
    { id := id, name := name, description := description,
      dataType := dataType, dataStreamType := stream.kind }
  let resource : DataStreamResource :=
    { metadata := metadata, stream := stream, externalRefs := extRefs }
  let s1 := { s with state := statePut id resource s.state }
  (sendIgnore s1 (.added metadata), id)

/-- `DataStreamStorage::remove`: `Ok(false)` on an absent id. On a present
id the entry is removed, `Arc::into_inner` is attempted — the stream is
destroyed ONLY when no other owner holds the `Arc` — and `Removed(id)` is
broadcast; the result's third component is the underlying stream's state
after the call (for observing whether `Destroy` was sent). -/
def remove (s : DataStreamStorage) (id : Nat) :
    DataStreamStorage × Bool × Option DataStream :=
  match assocGet id s.state with
  | none => (s, false, none)
  | some res =>
      let finalStream :=
        if res.externalRefs = 0 then res.stream.destroy else res.stream
      let s1 := { s with state := assocRemove id s.state }
      (sendIgnore s1 (.removed id), true, some finalStream)

/-- `DataStreamStorage::change_data_stream`: errors on an absent id;
otherwise replaces the entry's stream reference (metadata untouched) and
then `writer.changes.send(...)?` — with no subscriber on the registry change
broadcast the send error PROPAGATES, but the replacement has already
happened.  The first component is the storage after the call, the second the
Rust return value. -/
def change_data_stream (s : DataStreamStorage) (id : Nat)
    (newStream : DataStream) (newExtRefs : Nat) :
    DataStreamStorage × Except String Unit :=
  match assocGet id s.state with
  | none => (s, .error "Stream does not exist")
  | some res =>
      let replaced : DataStreamResource :=
        { res with stream := newStream, externalRefs := newExtRefs }
      let s1 := { s with state := statePut id replaced s.state }
      if s.changesSubscribers = 0 then (s1, .error "channel closed")
      else (sendIgnore s1 (.dataStreamChanged id), .ok ())

end DataStreamStorage

/-- `ValueInputRef::bind` (src/tooltrain-engine/src/streaming/inputs/api.rs)
composed with `OutputRef::inner_data_stream`
(src/commander-engine/src/streaming/outputs/api.rs): resolve the output's
entry (error when absent), clone its stream `Arc` (the output registry keeps
its own reference, so the clone has one more external owner) and hand it to
`change_data_stream` on the input registry under the input's id.  NO
comparison of declared types happens anywhere on this path. -/
def bind (inputs : DataStreamStorage) (inputId : Nat)
    (outputs : DataStreamStorage) (outputId : Nat) :
    DataStreamStorage × Except String Unit :=
  match assocGet outputId outputs.state with
  | none => (inputs, .error "Output does not exist")
  | some res =>
      inputs.change_data_stream inputId res.stream (res.externalRefs + 1)

/-! ### Concrete instances used by the stream and registry claims -/

/-- A tree node with id `"a"` and no payload. -/
def nodeA : TreeNode := { id := "a", value := [], hasChildren := false }

/-- An empty value stream (used as registry payload in scenarios). -/
def emptyValueStream : DataStream := .value (ValueStream.new none)

/-- An empty list stream used as an output's underlying stream. -/
def outputListStream : DataStream := .list ListStream.new

/-- A registry entry of declared type `boolean` backed by an empty value
stream, no other `Arc` owners. -/
def inputRes : DataStreamResource :=
  { metadata := { id := 0, name := "in", description := "",
                  dataType := .boolean, dataStreamType := .value },
    stream := emptyValueStream, externalRefs := 0 }

/-- A registry entry of declared type `string` backed by an empty list
stream, no other `Arc` owners. -/
def outputRes : DataStreamResource :=
  { metadata := { id := 0, name := "out", description := "",
                  dataType := .string, dataStreamType := .list },
    stream := outputListStream, externalRefs := 0 }

/-- An input registry with the one `boolean` entry at id 0; one subscriber
on the registry change broadcast. -/
def inputRegistry : DataStreamStorage :=
  { state := [(0, inputRes)], changes := [], changesSubscribers := 1 }

/-- An output registry with the one `string` entry at id 0. -/
def outputRegistry : DataStreamStorage :=
  { state := [(0, outputRes)], changes := [], changesSubscribers := 1 }

/-- A value stream that has one subscriber on its change broadcast. -/
def sharedStream : DataStream :=
  .value { value := none, updates := [], updatesSubscribers := 1 }

/-- A registry entry whose stream `Arc` has another owner outside the
registry (`externalRefs = 1`), e.g. a reference obtained through
`inner_data_stream`. -/
def sharedRes : DataStreamResource :=
  { metadata := { id := 0, name := "s", description := "",
                  dataType := .boolean, dataStreamType := .value },
    stream := sharedStream, externalRefs := 1 }

/-- A registry holding `sharedRes` at id 0; one subscriber on the registry
change broadcast. -/
def sharedRegistry : DataStreamStorage :=
  { state := [(0, sharedRes)], changes := [], changesSubscribers := 1 }

/-- A registry with entries 0 and 1 (sorted), used as the id-allocation
witness. -/
def twoEntryRegistry : DataStreamStorage :=
  { state := [(0,
      { metadata := { id := 0, name := "a", description := "",
                      dataType := .boolean, dataStreamType := .value },
        stream := emptyValueStream, externalRefs := 0 }),
     (1,
      { metadata := { id := 1, name := "b", description := "",
                      dataType := .boolean, dataStreamType := .value },
        stream := emptyValueStream, externalRefs := 0 })],
    changes := [], changesSubscribers := 0 }

/-- A list stream with `has_more_rows` set and one back-channel subscriber. -/
def pagedListStream : ListStream :=
  { ListStream.new with hasMoreRows := true, pageSubscribers := 1 }

/-- Strictly ascending resource ids: the invariant of the `BTreeMap`
association list of a registry. -/
def idsSorted : List (Nat × DataStreamResource) → Bool
  | [] => true
  | [_] => true
  | (a, _) :: (b, r) :: rest => decide (a < b) && idsSorted ((b, r) :: rest)

/-- The registry after one `add` on an empty registry (entry id 0). -/
def s1Reg : DataStreamStorage :=
  (DataStreamStorage.new.add "a" "" .boolean emptyValueStream 0).1

/-- After a second `add` (entry id 1). -/
def s2Reg : DataStreamStorage := (s1Reg.add "b" "" .boolean emptyValueStream 0).1

/-- After removing the entry with the highest id (id 1). -/
def s3Reg : DataStreamStorage := (s2Reg.remove 1).1

/-! ## Theorems

Helper lemmas first, then one theorem per claim (with witnesses and
counterexamples where required). -/

theorem mapToks_comp (f g : List Tok → List Tok) (e : Except String (List Tok)) :
    mapToks f (mapToks g e) = mapToks (fun ts => f (g ts)) e := by
  cases e <;> rfl

theorem isIdentStart_isIdentChar {c : Char} (h : isIdentStart c = true) :
    isIdentChar c = true := by
  simp [isIdentStart] at h
  simp [isIdentChar, Char.isAlphanum, h]

theorem isIdentStart_ne_space {c : Char} (h : isIdentStart c = true) : c ≠ ' ' := by
  intro hc
  subst hc
  simp [isIdentStart] at h

theorem lexIdent_chars (ws : List Char) (acc rest : List Char)
    (h : ws.all isIdentChar = true) :
    lexIdent acc (ws ++ rest) = lexIdent (ws.reverse ++ acc) rest := by
  induction ws generalizing acc with
  | nil => simp
  | cons c cs ih =>
    simp only [List.all_cons, Bool.and_eq_true] at h
    simp only [List.cons_append, lexIdent, h.1, if_pos, List.append_eq]
    rw [ih _ h.2]
    simp

theorem lexIdent_break (acc rest : List Char) (h : identBreak rest = true) :
    lexIdent acc rest = mapToks (Tok.ident (String.mk acc.reverse) :: ·) (lexChars rest) := by
  cases rest with
  | nil => simp [lexIdent, lexChars, mapToks]
  | cons c cs =>
    simp only [identBreak, Bool.not_eq_true'] at h
    have hstart : isIdentStart c = false := by
      cases hs : isIdentStart c
      · rfl
      · exact absurd (isIdentStart_isIdentChar hs) (by simp [h])
    by_cases hsp : c = ' '
    · subst hsp
      simp only [lexIdent, lexChars, h, hstart, if_neg, if_pos, Bool.false_eq_true, if_true]
      cases lexChars cs <;> simp [mapToks]
    · simp only [lexIdent, lexChars, h, hstart, hsp, if_neg, Bool.false_eq_true, if_false]
      cases hsym : symTok c with
      | none => simp [mapToks]
      | some tok => cases lexChars cs <;> simp [mapToks]



theorem identBreak_cons (c : Char) (cs : List Char) (h : isIdentChar c = false) :
    identBreak (c :: cs) = true := by
  simp [identBreak, h]

theorem lexChars_word (w : String) (rest : List Char)
    (hw : validIdent w = true) (hr : identBreak rest = true) :
    lexChars (w.data ++ rest) = mapToks (Tok.ident w :: ·) (lexChars rest) := by
  rcases hd : w.data with _ | ⟨c, cs⟩
  · simp [validIdent, hd] at hw
  · simp only [validIdent, hd, Bool.and_eq_true] at hw
    have hsp := isIdentStart_ne_space hw.1
    simp only [List.cons_append, lexChars, List.append_eq, hsp, if_false, hw.1,
      if_true, ite_false, ite_true]
    rw [lexIdent_chars cs [c] rest hw.2, lexIdent_break _ rest hr]
    have h1 : (cs.reverse ++ [c]).reverse = c :: cs := by simp
    rw [h1]
    have h2 : String.mk (c :: cs) = w := by rw [← hd]
    rw [h2]

theorem lexChars_lt (cs : List Char) :
    lexChars ('<' :: cs) = mapToks (Tok.lt :: ·) (lexChars cs) := by
  simp only [lexChars, show ('<' = ' ') = False by simp, if_false,
    show isIdentStart '<' = false by decide, Bool.false_eq_true,
    show symTok '<' = some Tok.lt by decide, ite_false]
  cases lexChars cs <;> simp [mapToks]

theorem lexChars_gt (cs : List Char) :
    lexChars ('>' :: cs) = mapToks (Tok.gt :: ·) (lexChars cs) := by
  simp only [lexChars, show ('>' = ' ') = False by simp, if_false,
    show isIdentStart '>' = false by decide, Bool.false_eq_true,
    show symTok '>' = some Tok.gt by decide, ite_false]
  cases lexChars cs <;> simp [mapToks]

theorem lexChars_comma (cs : List Char) :
    lexChars (',' :: cs) = mapToks (Tok.comma :: ·) (lexChars cs) := by
  simp only [lexChars, show (',' = ' ') = False by simp, if_false,
    show isIdentStart ',' = false by decide, Bool.false_eq_true,
    show symTok ',' = some Tok.comma by decide, ite_false]
  cases lexChars cs <;> simp [mapToks]

theorem lexChars_space (cs : List Char) : lexChars (' ' :: cs) = lexChars cs := by
  simp [lexChars]

theorem lexChars_variants (vs : List String) (rest : List Char)
    (hne : vs ≠ []) (hv : vs.all validIdent = true) (hr : identBreak rest = true) :
    lexChars ((joinComma vs).data ++ rest) =
      mapToks (identCommaToks vs ++ ·) (lexChars rest) := by
  induction vs with
  | nil => exact absurd rfl hne
  | cons v vs ih =>
    simp only [List.all_cons, Bool.and_eq_true] at hv
    cases vs with
    | nil =>
      simp only [joinComma, identCommaToks]
      rw [lexChars_word v rest hv.1 hr]
      cases lexChars rest <;> simp [mapToks]
    | cons v2 vs2 =>
      simp only [joinComma, identCommaToks]
      have happend : (v ++ ", " ++ joinComma (v2 :: vs2)).data ++ rest =
          v.data ++ (',' :: ' ' :: ((joinComma (v2 :: vs2)).data ++ rest)) := by
        simp [String.data_append]
      rw [happend, lexChars_word v _ hv.1 (identBreak_cons _ _ (by decide)),
        lexChars_comma, lexChars_space, ih (by simp) hv.2]
      cases lexChars rest <;> simp [mapToks]



theorem wfStatic_wfType {t : CommanderDataType} (h : wfStatic t = true) :
    wfType t = true := by
  cases t <;> simp_all [wfType, wfStatic]

theorem lexChars_print : ∀ (t : CommanderDataType) (rest : List Char),
    wfType t = true → identBreak rest = true →
    lexChars ((typeString t).data ++ rest) = mapToks (toksOf t ++ ·) (lexChars rest)
  | .trigger, rest, _, hr => by
    rw [show (typeString .trigger).data = "trigger".data from rfl,
      lexChars_word _ rest (by decide) hr]
    cases lexChars rest <;> simp [mapToks, toksOf]
  | .boolean, rest, _, hr => by
    rw [show (typeString .boolean).data = "boolean".data from rfl,
      lexChars_word _ rest (by decide) hr]
    cases lexChars rest <;> simp [mapToks, toksOf]
  | .number, rest, _, hr => by
    rw [show (typeString .number).data = "number".data from rfl,
      lexChars_word _ rest (by decide) hr]
    cases lexChars rest <;> simp [mapToks, toksOf]
  | .string, rest, _, hr => by
    rw [show (typeString .string).data = "string".data from rfl,
      lexChars_word _ rest (by decide) hr]
    cases lexChars rest <;> simp [mapToks, toksOf]
  | .bytes, rest, _, hr => by
    rw [show (typeString .bytes).data = "bytes".data from rfl,
      lexChars_word _ rest (by decide) hr]
    cases lexChars rest <;> simp [mapToks, toksOf]
  | .color, rest, _, hr => by
    rw [show (typeString .color).data = "color".data from rfl,
      lexChars_word _ rest (by decide) hr]
    cases lexChars rest <;> simp [mapToks, toksOf]
  | .json, rest, _, hr => by
    rw [show (typeString .json).data = "json".data from rfl,
      lexChars_word _ rest (by decide) hr]
    cases lexChars rest <;> simp [mapToks, toksOf]
  | .svg, rest, _, hr => by
    rw [show (typeString .svg).data = "svg".data from rfl,
      lexChars_word _ rest (by decide) hr]
    cases lexChars rest <;> simp [mapToks, toksOf]
  | .path, rest, _, hr => by
    rw [show (typeString .path).data = "path".data from rfl,
      lexChars_word _ rest (by decide) hr]
    cases lexChars rest <;> simp [mapToks, toksOf]
  | .enumT name vs, rest, ht, hr => by
    simp only [wfType, wfStatic, Bool.and_eq_true] at ht
    have happend : (typeString (.enumT name vs)).data ++ rest =
        "enum".data ++ (' ' :: (name.data ++
          ('<' :: ((joinComma vs).data ++ ('>' :: rest))))) := by
      simp [typeString, String.data_append]
    rw [happend, lexChars_word _ _ (by decide) (identBreak_cons _ _ (by decide)),
      lexChars_space,
      lexChars_word name _ ht.1.1 (identBreak_cons _ _ (by decide)),
      lexChars_lt,
      lexChars_variants vs _ (by simpa using ht.1.2) ht.2
        (identBreak_cons _ _ (by decide)),
      lexChars_gt]
    cases lexChars rest <;> simp [mapToks, toksOf]
  | .structT n fns fts, rest, ht, hr => by
    simp [wfType, wfStatic] at ht
  | .list child, rest, ht, hr => by
    have hchild : wfType child = true := by
      simp only [wfType, wfStatic] at ht ⊢
      cases child <;> simp_all [wfStatic]
    have happend : (typeString (.list child)).data ++ rest =
        "list".data ++ ('<' :: ((typeString child).data ++ ('>' :: rest))) := by
      simp [typeString, String.data_append]
    rw [happend, lexChars_word _ _ (by decide) (identBreak_cons _ _ (by decide)),
      lexChars_lt,
      lexChars_print child _ hchild (identBreak_cons _ _ (by decide)),
      lexChars_gt]
    cases lexChars rest <;> simp [mapToks, toksOf]



theorem parseVariants_toks : ∀ (vs : List String) (rest : List Tok), vs ≠ [] →
    parseVariants (identCommaToks vs ++ Tok.gt :: rest) = .ok (vs, rest)
  | [], _, h => absurd rfl h
  | [v], rest, _ => by simp [identCommaToks, parseVariants]
  | v :: v2 :: vs2, rest, _ => by
    simp only [identCommaToks, List.cons_append, parseVariants, List.append_eq]
    rw [parseVariants_toks (v2 :: vs2) rest (by simp)]

theorem parseStatic_toks : ∀ (t : CommanderDataType) (rest : List Tok),
    wfStatic t = true → parseStatic (toksOf t ++ rest) = .ok (t, rest)
  | .trigger, rest, ht => by simp [wfStatic] at ht
  | .boolean, rest, _ => by simp [toksOf, parseStatic, primOfKeyword]
  | .number, rest, _ => by simp [toksOf, parseStatic, primOfKeyword]
  | .string, rest, _ => by simp [toksOf, parseStatic, primOfKeyword]
  | .bytes, rest, _ => by simp [toksOf, parseStatic, primOfKeyword]
  | .color, rest, _ => by simp [toksOf, parseStatic, primOfKeyword]
  | .json, rest, _ => by simp [toksOf, parseStatic, primOfKeyword]
  | .svg, rest, _ => by simp [toksOf, parseStatic, primOfKeyword]
  | .path, rest, _ => by simp [toksOf, parseStatic, primOfKeyword]
  | .enumT name vs, rest, ht => by
    simp only [wfStatic, Bool.and_eq_true] at ht
    simp only [toksOf, List.cons_append, List.append_assoc, List.cons_append,
      parseStatic, List.append_eq, List.singleton_append, List.nil_append]
    rw [parseVariants_toks vs rest (by simpa using ht.1.2)]
  | .structT _ _ _, rest, ht => by simp [wfStatic] at ht
  | .list child, rest, ht => by
    have hchild : wfStatic child = true := by simpa [wfStatic] using ht
    simp only [toksOf, List.cons_append, List.append_assoc, List.cons_append,
      parseStatic, List.append_eq, List.singleton_append, List.nil_append]
    rw [parseStatic_toks child (Tok.gt :: rest) hchild]

theorem parseType_toks (t : CommanderDataType) (rest : List Tok)
    (ht : wfType t = true) : parseType (toksOf t ++ rest) = .ok (t, rest) := by
  cases t with
  | trigger => simp [toksOf, parseType]
  | enumT name vs =>
    have := parseStatic_toks (.enumT name vs) rest (by simpa [wfType] using ht)
    rw [← this]
    simp [toksOf, parseType]
  | list child =>
    have := parseStatic_toks (.list child) rest (by simpa [wfType] using ht)
    rw [← this]
    simp [toksOf, parseType]
  | structT n fns fts => simp [wfType, wfStatic] at ht
  | boolean =>
    have := parseStatic_toks .boolean rest (by simpa [wfType] using ht)
    rw [← this]; simp [toksOf, parseType]
  | number =>
    have := parseStatic_toks .number rest (by simpa [wfType] using ht)
    rw [← this]; simp [toksOf, parseType]
  | string =>
    have := parseStatic_toks .string rest (by simpa [wfType] using ht)
    rw [← this]; simp [toksOf, parseType]
  | bytes =>
    have := parseStatic_toks .bytes rest (by simpa [wfType] using ht)
    rw [← this]; simp [toksOf, parseType]
  | color =>
    have := parseStatic_toks .color rest (by simpa [wfType] using ht)
    rw [← this]; simp [toksOf, parseType]
  | json =>
    have := parseStatic_toks .json rest (by simpa [wfType] using ht)
    rw [← this]; simp [toksOf, parseType]
  | svg =>
    have := parseStatic_toks .svg rest (by simpa [wfType] using ht)
    rw [← this]; simp [toksOf, parseType]
  | path =>
    have := parseStatic_toks .path rest (by simpa [wfType] using ht)
    rw [← this]; simp [toksOf, parseType]

/-- C1: the claimed contract `decode(t, encode(t, v)) == v` fails for struct
types whose declared field order is not alphabetical.  For the type
`struct S<b: string, a: string>` and the well-formed value
`{a: "x", b: "y"}`, the encoder iterates the value's `BTreeMap` in key order
but zips it with the field types (and, on decode, the field names) in
declaration order, so the round trip returns `{a: "y", b: "x"}` — the two
field values exchanged — instead of the original value. -/
theorem struct_roundtrip_swaps_values :
    wfValue structBA structBAValue = true ∧
    (structBA.encode structBAValue).bind structBA.decode = .ok structBASwapped ∧
    structBASwapped ≠ structBAValue := by decide

/-- C2 (counterexample): `parse(print(t)) == t` fails for struct types.
Printing `struct S<b: string, a: string>` yields a grammar-conformant
string, but `expand_static_type` hits `todo!()` on the `struct` rule
(src/commander-data/src/lib.rs), a panic, modelled as a "panic:" error. -/
theorem parse_print_struct_panics :
    parse (typeString structBA) = .error "panic: not yet implemented (struct)" ∧
    parse (typeString structBA) ≠ .ok structBA := by decide

/-- C2 (amended): `parse(print(t)) == t` holds for every type of the
grammar's parseable fragment — `trigger` at top level, the primitives,
enums with valid identifier names and at least one variant, and arbitrarily
nested lists of such — but not for struct types (parsing them is
unimplemented, see the counterexample). -/
theorem parse_print_roundtrip (t : CommanderDataType) (ht : wfType t = true) :
    parse (typeString t) = .ok t := by
  have h1 := lexChars_print t [] ht (by decide)
  simp only [List.append_nil] at h1
  have h2 : lexChars (typeString t).data = .ok (toksOf t) := by
    rw [h1]
    simp [lexChars, mapToks]
  have h3 := parseType_toks t [] ht
  simp only [List.append_nil] at h3
  unfold parse
  rw [h2]
  dsimp only
  rw [h3]

/-- Witness for the C2 amended theorem at the repository's own test type
`enum Number<ONE, TWO>`. -/
theorem parse_print_roundtrip_witness :
    wfType enumNumber = true ∧ parse (typeString enumNumber) = .ok enumNumber :=
  ⟨by decide, parse_print_roundtrip enumNumber (by decide)⟩

/-- Helper: a run of `add` calls on a list stream with at least one
subscriber appends the values to the vector and one `Add` event per value to
the broadcast log, in order. -/
theorem addAll_spec (vs : List CommanderValue) : ∀ (s : ListStream),
    s.updatesSubscribers ≠ 0 →
    (s.addAll vs).value = s.value ++ vs ∧
    (s.addAll vs).updates = s.updates ++ vs.map ListChange.add := by
  induction vs with
  | nil => intro s h; simp [ListStream.addAll]
  | cons v vs ih =>
    intro s h
    have hadd : s.add v =
        { s with value := s.value ++ [v], updates := s.updates ++ [.add v] } := by
      simp [ListStream.add, ListStream.send, h]
    have hsub : (s.add v).updatesSubscribers ≠ 0 := by
      rw [hadd]; exact h
    have := ih (s.add v) hsub
    rw [hadd] at this
    simp only [ListStream.addAll, List.foldl_cons] at this ⊢
    rw [hadd]
    constructor
    · rw [this.1]; simp
    · rw [this.2]; simp

/-- C9: for a fresh `ListStream` and a subscriber taken before the adds,
after the `add(v_i)` calls the snapshot is exactly `[v_1, …, v_N]` and the
subscriber receives exactly `Add(v_1), …, Add(v_N)` in that order (the
event-log model assumes the broadcast ring never overflows, as the claim
does). -/
theorem list_adds_in_order (vs : List CommanderValue) :
    ((ListStream.new.subscribe.1).addAll vs).snapshot = vs ∧
    ((ListStream.new.subscribe.1).addAll vs).updates.drop
        ListStream.new.subscribe.2 = vs.map ListChange.add := by
  have h := addAll_spec vs ListStream.new.subscribe.1 (by decide)
  constructor
  · rw [ListStream.snapshot, h.1]; rfl
  · rw [h.2]; rfl

/-- C6 (amended): `requestPage(limit)` returns `false` when `hasMorePages`
is unset; when it is set it sends `limit` on the back-channel and returns
`true` PROVIDED the back-channel has a subscriber — with no subscriber the
send failure propagates as an error instead of being silently ignored. -/
theorem request_page_spec (s : ListStream) (limit : Nat) :
    (s.hasMoreRows = false → s.request_page limit = .ok (s, false)) ∧
    (s.hasMoreRows = true → s.pageSubscribers ≠ 0 →
      s.request_page limit =
        .ok ({ s with pageRequests := s.pageRequests ++ [limit] }, true)) ∧
    (s.hasMoreRows = true → s.pageSubscribers = 0 →
      s.request_page limit = .error "channel closed") := by
  refine ⟨fun hf => ?_, fun ht hs => ?_, fun ht hs => ?_⟩
  · simp [ListStream.request_page, hf]
  · simp [ListStream.request_page, ht, hs]
  · simp [ListStream.request_page, ht, hs]

/-- Witness for the C6 amended theorem: a list stream with `hasMorePages`
set and one back-channel subscriber accepts `requestPage(50)`. -/
theorem request_page_spec_witness :
    pagedListStream.hasMoreRows = true ∧
    pagedListStream.pageSubscribers ≠ 0 ∧
    pagedListStream.request_page 50 =
      .ok ({ pagedListStream with
              pageRequests := pagedListStream.pageRequests ++ [50] }, true) :=
  ⟨by decide, by decide,
    (request_page_spec pagedListStream 50).2.1 (by decide) (by decide)⟩

/-- C6 (counterexample): with `hasMorePages` set but nobody subscribed to
the page-request back-channel, `requestPage(50)` returns an error (the
`?` on `page_load_sender.send` propagates the tokio `SendError`) instead of
returning `true` with the send silently ignored. -/
theorem request_page_errors_without_subscriber :
    ({ ListStream.new with hasMoreRows := true } : ListStream).hasMoreRows = true ∧
    ({ ListStream.new with hasMoreRows := true } : ListStream).pageSubscribers = 0 ∧
    ({ ListStream.new with hasMoreRows := true } : ListStream).request_page 50 =
      .error "channel closed" := by decide

/-- C8 (amended): `TreeStream::add` performs NO duplicate-id check: even
when some child's id already exists among the tree's nodes, the call
succeeds, overwriting that node's map entry and appending the id to the
parent's edge list again. -/
theorem tree_add_accepts_duplicates (s : TreeStream) (children : List TreeNode)
    (c : TreeNode) (hc : c ∈ children)
    (hdup : (assocGet c.id s.nodes).isSome = true) :
    s.add none children =
      .ok (TreeStream.send
        { s with nodes := TreeStream.insertNodes s.nodes children,
                 edges := TreeStream.edgesAppend none (children.map TreeNode.id) s.edges }
        (.add none children)) := by
  simp [TreeStream.add]

/-- Witness for the C8 amended theorem: re-adding node `"a"` to a tree
already containing it succeeds. -/
theorem tree_add_accepts_duplicates_witness :
    nodeA ∈ [nodeA] ∧
    ∃ s1 : TreeStream,
      TreeStream.add TreeStream.new none [nodeA] = .ok s1 ∧
      (assocGet nodeA.id s1.nodes).isSome = true ∧
      TreeStream.add s1 none [nodeA] =
        .ok (TreeStream.send
          { s1 with nodes := TreeStream.insertNodes s1.nodes [nodeA],
                    edges := TreeStream.edgesAppend none ([nodeA].map TreeNode.id) s1.edges }
          (.add none [nodeA])) := by
  refine ⟨by decide, _, rfl, by decide, ?_⟩
  exact tree_add_accepts_duplicates _ [nodeA] nodeA (by decide) (by decide)

/-- C8 (counterexample): adding node `"a"` twice does NOT fail — both calls
return `Ok` — and the second call changes the tree state: the root edge list
becomes `["a", "a"]`, so node ids do not stay unique in the edge map. -/
theorem tree_duplicate_add_ok :
    ∃ s1 s2 : TreeStream,
      TreeStream.add TreeStream.new none [nodeA] = .ok s1 ∧
      TreeStream.add s1 none [nodeA] = .ok s2 ∧
      assocGet "a" s1.nodes = some nodeA ∧
      assocGet none s2.edges = some ["a", "a"] ∧
      s2 ≠ s1 := by
  refine ⟨_, _, rfl, rfl, ?_, ?_, ?_⟩ <;> decide

/-- C4: `remove(r)` removes `r` and its descendants from the node map but
leaves `r`'s id dangling in its parent's edge list, so the subsequent
`snapshot()` is NOT a valid forest: on the one-node tree `{a}`, after
`remove("a")` the root edge list still contains `"a"` while the node map
does not, and `snapshot()` panics (`self.nodes.get(id).unwrap()` in
`subtree`), modelled as `none`. -/
theorem tree_remove_breaks_snapshot :
    ∃ s1 s2 : TreeStream,
      TreeStream.add TreeStream.new none [nodeA] = .ok s1 ∧
      TreeStream.snapshotE s1 = some (.cons (.mk nodeA .nil) .nil) ∧
      TreeStream.remove s1 "a" = .ok s2 ∧
      assocGet "a" s2.nodes = none ∧
      assocGet none s2.edges = some ["a"] ∧
      TreeStream.snapshotE s2 = none := by
  refine ⟨_, _, rfl, ?_, rfl, ?_, ?_, ?_⟩ <;> decide

/-- C7: a `setHasMorePages` mutation is NOT delivered by the guest-facing
list change cursor as a `HasMorePages` record: the projection in
`HostListInput::get_change_stream` maps `ListChange::HasMorePages(_)` to
`todo!()`, a panic (while `Add` and `Clear` are delivered as `Append` and
`Replace([])` as specified). -/
theorem has_more_pages_change_panics :
    listChangeToGuest .boolean (.hasMorePages true) =
      .error "panic: not yet implemented (HasMorePages)" ∧
    (∀ b, listChangeToGuest .boolean (.hasMorePages true) ≠
      .ok (.hasMorePages b)) ∧
    listChangeToGuest .boolean (.add (.boolean true)) =
      .ok (.append (.bool true)) ∧
    listChangeToGuest .boolean .clear = .ok (.replace []) := by decide

/-- C3 (amended): `input.bind(output)` never compares declared Types.
Whenever the output id resolves, the input id exists in its registry and the
registry change broadcast has a subscriber, the bind succeeds: the input
entry's underlying stream reference is replaced by the output's (gaining the
output registry as an extra owner), its metadata — id, name, description and
declared Type — is kept, and `DataStreamChanged` is broadcast; no
TypeMismatch error exists on this path. -/
theorem bind_replaces_stream (inputs outputs : DataStreamStorage)
    (inputId outputId : Nat) (resIn resOut : DataStreamResource)
    (hIn : assocGet inputId inputs.state = some resIn)
    (hOut : assocGet outputId outputs.state = some resOut)
    (hSub : inputs.changesSubscribers ≠ 0) :
    bind inputs inputId outputs outputId =
      ({ inputs with
          state := DataStreamStorage.statePut inputId
            { resIn with stream := resOut.stream,
                         externalRefs := resOut.externalRefs + 1 } inputs.state,
          changes := inputs.changes ++ [.dataStreamChanged inputId] },
        .ok ()) := by
  simp [bind, hOut, DataStreamStorage.change_data_stream, hIn, hSub,
    DataStreamStorage.sendIgnore]

/-- Witness for the C3 amended theorem at the concrete one-entry
registries. -/
theorem bind_replaces_stream_witness :
    assocGet 0 inputRegistry.state = some inputRes ∧
    assocGet 0 outputRegistry.state = some outputRes ∧
    inputRegistry.changesSubscribers ≠ 0 ∧
    bind inputRegistry 0 outputRegistry 0 =
      ({ inputRegistry with
          state := DataStreamStorage.statePut 0
            { inputRes with stream := outputRes.stream,
                            externalRefs := outputRes.externalRefs + 1 } inputRegistry.state,
          changes := inputRegistry.changes ++ [.dataStreamChanged 0] },
        .ok ()) :=
  ⟨by decide, by decide, by decide,
    bind_replaces_stream inputRegistry outputRegistry 0 0 inputRes outputRes
      (by decide) (by decide) (by decide)⟩

/-- C3 (counterexample): binding an input of declared type `boolean` to an
output of declared type `string` SUCCEEDS — the entry's stream is replaced
while its metadata keeps the `boolean` type — contradicting the claim that
bind fails with TypeMismatch and leaves the entry unchanged when the types
differ. -/
theorem bind_type_mismatch_ok :
    (assocGet 0 inputRegistry.state).map (fun r => r.metadata.dataType) =
      some .boolean ∧
    (assocGet 0 outputRegistry.state).map (fun r => r.metadata.dataType) =
      some .string ∧
    (CommanderDataType.boolean ≠ .string) ∧
    (bind inputRegistry 0 outputRegistry 0).2 = .ok () ∧
    (assocGet 0 (bind inputRegistry 0 outputRegistry 0).1.state).map
        (fun r => r.stream) = some outputListStream ∧
    (assocGet 0 (bind inputRegistry 0 outputRegistry 0).1.state).map
        (fun r => r.metadata.dataType) = some .boolean := by decide

/-- C10 (amended): removing a present id returns `true`, deletes the entry
and broadcasts `Removed(id)`; but the underlying stream is destroyed (its
subscribers sent `Destroy`) ONLY when the registry held the last reference
to it (`Arc::into_inner`): with other owners the stream is returned
untouched. -/
theorem remove_present_spec (s : DataStreamStorage) (id : Nat)
    (res : DataStreamResource) (h : assocGet id s.state = some res)
    (hSub : s.changesSubscribers ≠ 0) :
    (s.remove id).2.1 = true ∧
    (s.remove id).1.state = assocRemove id s.state ∧
    (s.remove id).1.changes = s.changes ++ [.removed id] ∧
    (s.remove id).2.2 =
      some (if res.externalRefs = 0 then res.stream.destroy else res.stream) := by
  simp [DataStreamStorage.remove, h, DataStreamStorage.sendIgnore, hSub]

/-- Witness for the C10 amended theorem at the shared-stream registry. -/
theorem remove_present_spec_witness :
    assocGet 0 sharedRegistry.state = some sharedRes ∧
    sharedRegistry.changesSubscribers ≠ 0 ∧
    ((sharedRegistry.remove 0).2.1 = true ∧
     (sharedRegistry.remove 0).1.state = assocRemove 0 sharedRegistry.state ∧
     (sharedRegistry.remove 0).1.changes =
       sharedRegistry.changes ++ [.removed 0] ∧
     (sharedRegistry.remove 0).2.2 =
       some (if sharedRes.externalRefs = 0 then sharedRes.stream.destroy
             else sharedRes.stream)) :=
  ⟨by decide, by decide,
    remove_present_spec sharedRegistry 0 sharedRes (by decide) (by decide)⟩

/-- C10 (counterexample): removing an entry whose stream `Arc` has another
owner returns `true` and emits `Removed(0)`, but does NOT send `Destroy` to
the stream's subscriber: the returned stream equals the original (its event
log still empty), and destroying it would have changed it. -/
theorem remove_shared_skips_destroy :
    (sharedRegistry.remove 0).2.1 = true ∧
    (sharedRegistry.remove 0).1.changes = [.removed 0] ∧
    (sharedRegistry.remove 0).2.2 = some sharedStream ∧
    sharedStream.destroy ≠ sharedStream := by decide

/-- Helper: in a sorted registry map, every key is at most the last key. -/
theorem idsSorted_le_last : ∀ (l : List (Nat × DataStreamResource))
    (p : Nat × DataStreamResource) (q : Nat × DataStreamResource),
    idsSorted l = true → p ∈ l → l.getLast? = some q → p.1 ≤ q.1
  | [], _, _, _, hp, _ => absurd hp (List.not_mem_nil _)
  | [a], p, q, _, hp, hq => by
    simp at hp hq
    subst hp; subst hq
    exact le_refl _
  | a :: b :: rest, p, q, hs, hp, hq => by
    have hs2 : idsSorted (b :: rest) = true := by
      rcases a with ⟨ka, ra⟩
      rcases b with ⟨kb, rb⟩
      simpa [idsSorted, Bool.and_eq_true] using
        (by simpa [idsSorted, Bool.and_eq_true] using hs :
          ka < kb ∧ idsSorted ((kb, rb) :: rest) = true).2
    have hab : a.1 < b.1 := by
      rcases a with ⟨ka, ra⟩
      rcases b with ⟨kb, rb⟩
      exact (by simpa [idsSorted, Bool.and_eq_true] using hs :
        ka < kb ∧ idsSorted ((kb, rb) :: rest) = true).1
    have hq2 : (b :: rest).getLast? = some q := by
      simpa [List.getLast?_cons_cons] using hq
    rcases List.mem_cons.mp hp with hpa | hpb
    · subst hpa
      have hb := idsSorted_le_last (b :: rest) b q hs2 (by simp) hq2
      exact le_trans (le_of_lt hab) hb
    · exact idsSorted_le_last (b :: rest) p q hs2 hpb hq2

/-- C5 (amended): `add` allocates highest-existing-id + 1 — 0 on an empty
registry, and on a sorted registry an id strictly greater than every id
currently present (hence never colliding with a live entry).  Freshness
beyond the live entries does NOT hold, see the counterexample. -/
theorem add_allocates_fresh (s : DataStreamStorage)
    (name description : String) (dataType : CommanderDataType)
    (stream : DataStream) (extRefs : Nat)
    (h : idsSorted s.state = true) :
    (s.state = [] → (s.add name description dataType stream extRefs).2 = 0) ∧
    (∀ p ∈ s.state,
      p.1 < (s.add name description dataType stream extRefs).2) := by
  constructor
  · intro he
    simp [DataStreamStorage.add, DataStreamStorage.nextIndex, he]
  · intro p hp
    rcases hlast : s.state.getLast? with _ | ⟨k, r⟩
    · rw [List.getLast?_eq_none_iff] at hlast
      rw [hlast] at hp
      exact absurd hp (List.not_mem_nil _)
    · have := idsSorted_le_last s.state p (k, r) h hp hlast
      simp [DataStreamStorage.add, DataStreamStorage.nextIndex, hlast]
      omega

/-- Witness for the C5 amended theorem at a sorted two-entry registry. -/
theorem add_allocates_fresh_witness :
    idsSorted twoEntryRegistry.state = true ∧
    (∀ p ∈ twoEntryRegistry.state,
      p.1 < (twoEntryRegistry.add "c" "" .boolean emptyValueStream 0).2) :=
  ⟨by decide,
    (add_allocates_fresh twoEntryRegistry "c" "" .boolean emptyValueStream 0
      (by decide)).2⟩

/-- C5 (counterexample): ids ARE reused after a removal.  Starting from an
empty registry: `add` → 0, `add` → 1, `remove(1)` → true, and the next
`add` allocates 1 again (the allocator is highest-LIVE-id + 1, with no
memory of removed ids). -/
theorem id_reused_after_remove :
    (DataStreamStorage.new.add "a" "" .boolean emptyValueStream 0).2 = 0 ∧
    (s1Reg.add "b" "" .boolean emptyValueStream 0).2 = 1 ∧
    (s2Reg.remove 1).2.1 = true ∧
    assocGet 1 s3Reg.state = none ∧
    (s3Reg.add "c" "" .boolean emptyValueStream 0).2 = 1 := by decide

end Tooltrain
